import Mathlib

/-!
Shallow embedding of the two terminal games of this repository and proofs
about the claims of the specification.

* `Backup` models `src/backup.py` (the simple bullet-dodging variant):
  integer positions, a player, a list of bullets and a list of enemies.
* `MainGame` models `src/main.py` (the richer curses variant): rational
  positions for enemies and projectiles, a wall map, health and ammo.

Python floating-point arithmetic is modelled over `ℚ` (and, for the one
place where an irrational square root appears, characterised exactly over
`ℝ` by a bridging lemma).  Python `int(x)` truncates toward zero; it is
modelled by `truncQ` below, never by the mathematical floor.
-/

/-- Python `int()` on a rational: truncation toward zero
(`int(-0.5) == 0`, `int(1.5) == 1`). -/
def truncQ (q : ℚ) : ℤ := if q < 0 then -Rat.floor (-q) else Rat.floor q

/-- Cell lookup in a row-major character grid, as Python `grid[y][x]`
(used only at indices the code has already bounds-checked, so the
out-of-range default is never reached in the guarded call sites). -/
def cellAt (grid : List (List Char)) (x y : ℤ) : Char :=
  (grid.getD y.toNat []).getD x.toNat ' '

/-- In-place overwrite of one grid cell, as Python `grid[y][x] = c` or a
curses `addch(y, x, c)` call. -/
def setCell (grid : List (List Char)) (x y : ℤ) (c : Char) : List (List Char) :=
  grid.set y.toNat ((grid.getD y.toNat []).set x.toNat c)

namespace Backup

/-- The `backup.py` `Entity` dataclass: position, glyph, bullet direction,
faction flag.  Dataclass equality is field-wise equality. -/
structure Entity where
  x : ℤ
  y : ℤ
  char : Char
  dx : ℤ := 0
  dy : ℤ := 0
  is_enemy : Bool := false
deriving DecidableEq

/-- The `backup.py` `Game` state (the real-time fields `last_spawn_time` and
`last_update_time` only pace the loop and are not part of the logic). -/
structure GameState where
  width : ℤ
  height : ℤ
  player : Entity
  bullets : List Entity
  enemies : List Entity
  score : ℤ
  game_over : Bool
deriving DecidableEq

/-- One axis component of the per-frame enemy step of
`Game.move_enemies`: the Python expression `int(d/dist + 0.5)` with
`dist = sqrt(d*d + o*o)`, `int()` truncating toward zero.
Since `d/dist ∈ [-1, 1]`, the truncation yields `1` exactly when
`d/dist ≥ 1/2`, i.e. when `0 < d` and `o² ≤ 3·d²`, and `0` otherwise
(never `-1`: `int(-0.5) == 0`).  `stepComponent_eq_trunc_real` below
proves this characterisation against the exact real-valued expression. -/
def stepComponent (d o : ℤ) : ℤ :=
  if 0 < d ∧ o ^ 2 ≤ 3 * d ^ 2 then 1 else 0

/-- The body of the `for enemy in self.enemies` loop of
`Game.move_enemies`: skip the step when `dist == 0`, otherwise add the
truncated step on each axis. -/
def move_enemy (p : Entity) (e : Entity) : Entity :=
  if e.x = p.x ∧ e.y = p.y then e
  else { e with x := e.x + stepComponent (p.x - e.x) (p.y - e.y),
                y := e.y + stepComponent (p.y - e.y) (p.x - e.x) }

/-- Embedding of `Game.move_enemies`: every enemy steps toward the player; the game
ends if any enemy ends the frame on the player's cell. -/
def move_enemies (g : GameState) : GameState :=
  let es := g.enemies.map (move_enemy g.player)
  { g with enemies := es,
           game_over := g.game_over ∨ es.any fun e => e.x = g.player.x ∧ e.y = g.player.y }

/-- The direction-to-glyph chain of `Game.shoot` (initial value `'→'`,
then overridden per direction). -/
def bulletChar (dx dy : ℤ) : Char :=
  if dx = 1 then '→'
  else if dx = -1 then '←'
  else if dy = 1 then '↓'
  else if dy = -1 then '↑'
  else '→'

/-- Embedding of `Game.shoot`: append one bullet one tile ahead of the player in the
given direction, with the direction-derived glyph. -/
def shoot (g : GameState) (dx dy : ℤ) : GameState :=
  { g with bullets :=
      g.bullets ++ [{ x := g.player.x + dx, y := g.player.y + dy,
                      char := bulletChar dx dy, dx := dx, dy := dy, is_enemy := false }] }

/-- Accumulator of the `for bullet in self.bullets[:]` loop of
`Game.update_bullets`: the bullets kept so far, the live enemies and the
score. -/
structure BulletsAcc where
  kept : List Entity
  enemies : List Entity
  score : ℤ
deriving DecidableEq

/-- One iteration of the `Game.update_bullets` loop: advance the bullet
by its direction; drop it when out of `[0,width) × [0,height)`; otherwise
remove the first enemy on its cell together with the bullet (`+10`
score), or keep the bullet. -/
def update_bullet_step (width height : ℤ) (st : BulletsAcc) (b : Entity) : BulletsAcc :=
  let b := { b with x := b.x + b.dx, y := b.y + b.dy }
  if b.x < 0 ∨ width ≤ b.x ∨ b.y < 0 ∨ height ≤ b.y then st
  else
    match st.enemies.find? (fun e => b.x == e.x && b.y == e.y) with
    | some e => { st with enemies := st.enemies.erase e, score := st.score + 10 }
    | none => { st with kept := st.kept ++ [b] }

/-- Embedding of `Game.update_bullets`: fold the loop body over a snapshot of the
bullet list; surviving bullets keep their iteration order. -/
def update_bullets (g : GameState) : GameState :=
  let st := g.bullets.foldl (update_bullet_step g.width g.height)
    { kept := [], enemies := g.enemies, score := g.score }
  { g with bullets := st.kept, enemies := st.enemies, score := st.score }

/-- Embedding of the `Game.draw` grid construction: blank grid, then bullets, then
enemies, then the player, later writes overwriting earlier ones. -/
def draw_grid (g : GameState) : List (List Char) :=
  let grid0 := List.replicate g.height.toNat (List.replicate g.width.toNat ' ')
  let grid1 := g.bullets.foldl (fun gr b => setCell gr b.x b.y b.char) grid0
  let grid2 := g.enemies.foldl (fun gr e => setCell gr e.x e.y e.char) grid1
  setCell grid2 g.player.x g.player.y g.player.char

/-- The movement half of the key dispatch in `backup.py`'s `main` loop
(identical in the Unix and Windows branches): a WASD key moves the
player one tile, bounds-checked against the grid edges; any other key
(or a failed bound check) leaves the player in place. -/
def move_player (g : GameState) (c : Char) : GameState :=
  if c = 'w' ∧ 0 < g.player.y then
    { g with player := { g.player with y := g.player.y - 1 } }
  else if c = 's' ∧ g.player.y < g.height - 1 then
    { g with player := { g.player with y := g.player.y + 1 } }
  else if c = 'a' ∧ 0 < g.player.x then
    { g with player := { g.player with x := g.player.x - 1 } }
  else if c = 'd' ∧ g.player.x < g.width - 1 then
    { g with player := { g.player with x := g.player.x + 1 } }
  else g

/-- Position inside the playing field, the invariant claimed by the
specification. -/
def inBounds (width height : ℤ) (x y : ℤ) : Prop :=
  0 ≤ x ∧ x < width ∧ 0 ≤ y ∧ y < height

instance (width height x y : ℤ) : Decidable (inBounds width height x y) := by
  unfold inBounds; infer_instance

end Backup

namespace MainGame

/-- The `main.py` glyph constants. -/
def PLAYER_CHAR : Char := '@'

def ENEMY_CHAR : Char := 'E'

def WALL_CHAR : Char := '#'

def FLOOR_CHAR : Char := '.'

def ARROW_CHAR : Char := '*'

def ENEMY_ARROW_CHAR : Char := '+'

/-- The `main.py` `Player`: integer tile position (all player moves are whole
tiles), health `100`, speed `1`, ammo `10` at construction. -/
structure Player where
  x : ℤ
  y : ℤ
  char : Char := PLAYER_CHAR
  health : ℤ := 100
  speed : ℤ := 1
  ammo : ℤ := 10
deriving DecidableEq

/-- The `main.py` `Enemy`: fractional position (floats modelled over `ℚ`),
health `50`, speed `0.5`.  The real-time fields `last_shot_time` and
`shoot_delay` only decide *when* a shot happens; that decision enters the
model as an explicit parameter of `update_enemies`. -/
structure Enemy where
  x : ℚ
  y : ℚ
  char : Char := ENEMY_CHAR
  health : ℤ := 50
  speed : ℚ := 1 / 2
deriving DecidableEq

/-- The `main.py` `Projectile`: fractional position and direction, speed `2`,
glyph chosen from the faction flag at construction. -/
structure Projectile where
  x : ℚ
  y : ℚ
  char : Char
  dx : ℚ
  dy : ℚ
  speed : ℚ := 2
  is_enemy : Bool
deriving DecidableEq

/-- In `Projectile.__init__` the glyph is `'+'` for an enemy shot and `'*'`
for a player shot, independent of the direction. -/
def mkProjectile (x y dx dy : ℚ) (is_enemy : Bool) : Projectile :=
  { x := x, y := y, char := if is_enemy then ENEMY_ARROW_CHAR else ARROW_CHAR,
    dx := dx, dy := dy, speed := 2, is_enemy := is_enemy }

/-- The `main.py` `Game` state (screen handle and wall-clock fields omitted:
they carry no game logic). -/
structure GameState where
  width : ℤ
  height : ℤ
  map : List (List Char)
  player : Player
  enemies : List Enemy
  projectiles : List Projectile
  game_over : Bool
deriving DecidableEq

/-- The deterministic part of `Game.generate_map`: border walls on all
four edges, floor inside (the randomly sprinkled interior walls are a
random choice; any interior pattern is representable by the `map` field
directly). -/
def border_map (width height : ℤ) : List (List Char) :=
  (List.range height.toNat).map fun y =>
    (List.range width.toNat).map fun x =>
      if y = 0 ∨ y = height.toNat - 1 ∨ x = 0 ∨ x = width.toNat - 1
      then WALL_CHAR else FLOOR_CHAR

/-- Embedding of `Game.move_entity` (only ever applied to the player, whose moves are
whole tiles): step `(dx, dy)` if the destination is inside the grid and a
floor tile, otherwise stay. -/
def move_entity (g : GameState) (p : Player) (dx dy : ℤ) : Player :=
  let nx := p.x + dx
  let ny := p.y + dy
  if 0 ≤ nx ∧ nx < g.width ∧ 0 ≤ ny ∧ ny < g.height ∧
      cellAt g.map nx ny = FLOOR_CHAR then
    { p with x := nx, y := ny }
  else p

/-- Embedding of `Game.shoot`: a player shot (`is_enemy = False`) is dropped when
`ammo ≤ 0` and costs one ammo otherwise; an enemy shot is unconditional
and free.  Either way, at most one projectile is appended. -/
def shoot (g : GameState) (x y dx dy : ℚ) (is_enemy : Bool) : GameState :=
  if is_enemy = false ∧ g.player.ammo ≤ 0 then g
  else
    let g' := if is_enemy then g
              else { g with player := { g.player with ammo := g.player.ammo - 1 } }
    { g' with projectiles := g'.projectiles ++ [mkProjectile x y dx dy is_enemy] }

/-- The movement half of one `Game.update_enemies` loop iteration.
`dx`, `dy` stand for the jittered normalised chase direction (a
real-valued random quantity, passed in as a parameter); the candidate
position is accepted only when its `int()`-truncated cell is inside the
grid and a floor tile. -/
def update_enemy_move (g : GameState) (e : Enemy) (dx dy dt : ℚ) : Enemy :=
  let nx := e.x + dx * e.speed * dt
  let ny := e.y + dy * e.speed * dt
  if 0 ≤ truncQ nx ∧ truncQ nx < g.width ∧ 0 ≤ truncQ ny ∧ truncQ ny < g.height ∧
      cellAt g.map (truncQ nx) (truncQ ny) = FLOOR_CHAR then
    { e with x := nx, y := ny }
  else e

/-- The per-enemy random/timer choices of one `Game.update_enemies`
iteration: the jittered chase direction, whether the shoot timer elapsed
this frame, and the normalised shot direction toward the player. -/
structure EnemyTickChoice where
  dx : ℚ
  dy : ℚ
  fires : Bool
  sdx : ℚ
  sdy : ℚ

/-- Embedding of `Game.update_enemies`: each enemy moves, then (when its shoot timer
elapsed) fires one projectile from its updated position via
`shoot(..., is_enemy=True)`.  `choices` supplies the per-enemy random
draws, one per enemy.  The loop iterations are independent (each touches
only its own enemy and appends its own shot, while the player, the map
and the grid stay fixed), so the loop is rendered as a map over the
enemies plus the in-order list of fired projectiles. -/
def update_enemies (g : GameState) (dt : ℚ) (choices : List EnemyTickChoice) : GameState :=
  { g with
    enemies := (g.enemies.zip choices).map
      (fun ec => update_enemy_move g ec.1 ec.2.dx ec.2.dy dt),
    projectiles := g.projectiles ++ (g.enemies.zip choices).filterMap
      (fun ec =>
        if ec.2.fires then
          some (mkProjectile (update_enemy_move g ec.1 ec.2.dx ec.2.dy dt).x
            (update_enemy_move g ec.1 ec.2.dx ec.2.dy dt).y ec.2.sdx ec.2.sdy true)
        else none) }

/-- Accumulator of the `for projectile in self.projectiles[:]` loop of
`Game.update_projectiles`: kept projectiles, live enemies, player health
and ammo, game-over flag. -/
structure ProjAcc where
  kept : List Projectile
  enemies : List Enemy
  health : ℤ
  ammo : ℤ
  game_over : Bool
deriving DecidableEq

/-- One iteration of the `Game.update_projectiles` loop: advance by
`direction · speed · dt`; drop the projectile when it leaves
`[0,width) × [0,height)` or its `int()`-cell is a wall; an enemy shot on
the player's floor-cell costs 10 health (game over at `health ≤ 0`) and
is dropped; a player shot on the floor-cell of some enemy removes the
first such enemy, awards `+2` ammo and is dropped; otherwise keep it. -/
def update_projectile_step (g : GameState) (dt : ℚ) (st : ProjAcc) (p : Projectile) : ProjAcc :=
  let p := { p with x := p.x + p.dx * p.speed * dt, y := p.y + p.dy * p.speed * dt }
  if p.x < 0 ∨ (g.width : ℚ) ≤ p.x ∨ p.y < 0 ∨ (g.height : ℚ) ≤ p.y then st
  else if cellAt g.map (truncQ p.x) (truncQ p.y) = WALL_CHAR then st
  else if p.is_enemy then
    if Rat.floor (g.player.x : ℚ) = Rat.floor p.x ∧ Rat.floor (g.player.y : ℚ) = Rat.floor p.y then
      let h := st.health - 10
      { st with health := h, game_over := if h ≤ 0 then true else st.game_over }
    else { st with kept := st.kept ++ [p] }
  else
    match st.enemies.find? (fun e => Rat.floor e.x == Rat.floor p.x && Rat.floor e.y == Rat.floor p.y) with
    | some e => { st with enemies := st.enemies.erase e, ammo := st.ammo + 2 }
    | none => { st with kept := st.kept ++ [p] }

/-- Embedding of `Game.update_projectiles`: fold the loop body over a snapshot of the
projectile list. -/
def update_projectiles (g : GameState) (dt : ℚ) : GameState :=
  let st := g.projectiles.foldl (update_projectile_step g dt)
    { kept := [], enemies := g.enemies, health := g.player.health,
      ammo := g.player.ammo, game_over := g.game_over }
  { g with projectiles := st.kept, enemies := st.enemies,
           player := { g.player with health := st.health, ammo := st.ammo },
           game_over := st.game_over }

/-- Embedding of the `Game.render` glyph layering: the static map, then the player, then
the enemies (at their truncated cells), then the projectiles — later
`addch` calls overwrite earlier ones at the same cell. -/
def render_grid (g : GameState) : List (List Char) :=
  let grid1 := setCell g.map g.player.x g.player.y g.player.char
  let grid2 := g.enemies.foldl (fun gr e => setCell gr (truncQ e.x) (truncQ e.y) e.char) grid1
  g.projectiles.foldl (fun gr p => setCell gr (truncQ p.x) (truncQ p.y) p.char) grid2

/-- The win test of `Game.run`: after a tick the win prompt is shown
exactly when `not self.enemies`. -/
def run_win_check (g : GameState) : Bool := g.enemies.isEmpty

/-- Position of a fractional-coordinate entity inside the playing
field. -/
def inBoundsQ (width height : ℤ) (x y : ℚ) : Prop :=
  0 ≤ x ∧ x < width ∧ 0 ≤ y ∧ y < height

instance (width height : ℤ) (x y : ℚ) : Decidable (inBoundsQ width height x y) := by
  unfold inBoundsQ; infer_instance

end MainGame

/-! ### Concrete game states used by the individual claim analyses -/

/-- Simple variant: the starting player at `(20, 10)` with one enemy
directly adjacent on the `+x` side. -/
def c1StateRight : Backup.GameState :=
  { width := 40, height := 20, player := ⟨20, 10, '@', 0, 0, false⟩,
    bullets := [], enemies := [⟨21, 10, 'E', 0, 0, true⟩], score := 0, game_over := false }

/-- Simple variant: the starting player at `(20, 10)` with one enemy
directly adjacent on the `-x` side. -/
def c1StateLeft : Backup.GameState :=
  { width := 40, height := 20, player := ⟨20, 10, '@', 0, 0, false⟩,
    bullets := [], enemies := [⟨19, 10, 'E', 0, 0, true⟩], score := 0, game_over := false }

/-- Richer variant: an enemy standing exactly on the player's cell. -/
def c2State : MainGame.GameState :=
  { width := 40, height := 20, map := MainGame.border_map 40 20,
    player := { x := 5, y := 5 }, enemies := [{ x := 5, y := 5 }],
    projectiles := [], game_over := false }

/-- Richer variant: player at 10 health with two enemy projectiles one
tile away on each side, both arriving this tick (`dt = 1/2`, speed 2). -/
def c3State : MainGame.GameState :=
  { width := 40, height := 20, map := MainGame.border_map 40 20,
    player := { x := 5, y := 5, health := 10, ammo := 0 }, enemies := [],
    projectiles := [MainGame.mkProjectile 4 5 1 0 true,
                    MainGame.mkProjectile 6 5 (-1) 0 true],
    game_over := false }

/-- Simple variant: two player bullets converging on the single enemy at
`(5, 5)` in the same tick. -/
def c4State : Backup.GameState :=
  { width := 40, height := 20, player := ⟨0, 0, '@', 0, 0, false⟩,
    bullets := [⟨4, 5, '→', 1, 0, false⟩, ⟨6, 5, '←', -1, 0, false⟩],
    enemies := [⟨5, 5, 'E', 0, 0, true⟩], score := 0, game_over := false }

/-- Simple variant: the player standing on the right border column
`x = width - 1`. -/
def c5State : Backup.GameState :=
  { width := 40, height := 20, player := ⟨39, 10, '@', 0, 0, false⟩,
    bullets := [], enemies := [], score := 0, game_over := false }

/-! ### Claim C1 (code bug)

`backup.py` computes each enemy step component as `int(dx/dist + 0.5)`.
Python `int()` truncates toward zero, so for a unit displacement in the
negative direction (`dx/dist = -1`) the step is `int(-0.5) = 0`: an enemy
adjacent to the player on the `+x` (or `+y`) side never moves, never
reaches the player, and never triggers `game_over`, although the code's
own comment says the enemy moves toward the player and the spec's
scenario expects the collision in either direction.  The `-x` side works
as specified. -/

/-- C1: evaluating `Game.move_enemies` at the failing input.  An enemy at
`(21, 10)` adjacent to the player at `(20, 10)` stays in place and
`game_over` stays `false` after one enemy-move tick, contradicting the
claim; the mirror-image enemy at `(19, 10)` does reach the player and
ends the game. -/
theorem c1_adjacent_enemy_failing_eval :
    (Backup.move_enemies c1StateRight).enemies = [⟨21, 10, 'E', 0, 0, true⟩] ∧
    (Backup.move_enemies c1StateRight).game_over = false ∧
    (Backup.move_enemies c1StateLeft).enemies = [⟨20, 10, 'E', 0, 0, true⟩] ∧
    (Backup.move_enemies c1StateLeft).game_over = true := by
  decide

/-! ### Claim C2 (corrected)

`backup.py` `Game.draw` does draw the player last (bullets, then enemies,
then the player).  But `main.py` `Game.render` draws the player *first*
among the entities (map, player, enemies, projectiles), so in the richer
variant an enemy or projectile sharing the player's cell overwrites the
player's glyph. -/

unseal Rat.add Rat.mul Rat.inv Rat.sub in
/-- C2 counterexample: in the richer variant, with an enemy standing on
the player's cell `(5, 5)`, the rendered grid shows the enemy glyph, not
the player glyph, at that cell. -/
theorem c2_render_player_not_last_cex :
    cellAt (MainGame.render_grid c2State) 5 5 = MainGame.ENEMY_CHAR ∧
    MainGame.ENEMY_CHAR ≠ MainGame.PLAYER_CHAR := by
  decide

/-! ### Claim C3 (corrected)

The richer variant's `update_projectiles` keeps processing the remaining
projectiles of the tick after `game_over` is set, and each enemy hit
subtracts 10 unconditionally, so two enemy projectiles arriving in the
same tick can drive health from 10 to −10: health *can* go negative.
The game-over half of the claim is right: the flag is set exactly when a
hit first leaves health ≤ 0 (`c3_game_over_iff_health_nonpos` below). -/

unseal Rat.add Rat.mul Rat.inv Rat.sub in
/-- C3 counterexample: with 10 health and two enemy projectiles reaching
the player's cell in the same tick, `update_projectiles` leaves health at
`-10`, which is negative. -/
theorem c3_negative_health_cex :
    (MainGame.update_projectiles c3State (1/2)).player.health = -10 ∧
    (MainGame.update_projectiles c3State (1/2)).game_over = true := by
  decide

/-! ### Claim C4 (corrected)

When two projectiles of the same tick share the cell of one opposing
entity, the first projectile (in list order) and the entity are removed,
but the second projectile survives the tick even though it occupies the
same cell the entity occupied — the claim's universal "both are removed"
fails.  What holds: the projectile is removed together with the *first
still-live* entity on its cell, each exactly once. -/

/-- C4 counterexample: in the simple variant, two bullets converge on the
single enemy's cell `(5, 5)` in one `update_bullets` tick.  The enemy and
the first bullet are removed, but the second bullet — which also moved
onto the enemy's cell `(5, 5)` this tick — survives, still on that very
cell, contradicting the claim that both members of every overlapping
projectile/entity pair are removed. -/
theorem c4_double_overlap_cex :
    (Backup.update_bullets c4State).enemies = [] ∧
    (Backup.update_bullets c4State).bullets = [⟨5, 5, '←', -1, 0, false⟩] ∧
    (⟨5, 5, '←', -1, 0, false⟩ : Backup.Entity).x = (⟨5, 5, 'E', 0, 0, true⟩ : Backup.Entity).x ∧
    (⟨5, 5, '←', -1, 0, false⟩ : Backup.Entity).y = (⟨5, 5, 'E', 0, 0, true⟩ : Backup.Entity).y := by
  decide

/-! ### Claim C5 (corrected)

In the simple variant `Game.shoot` creates the bullet at
`(player.x + dx, player.y + dy)` with no bounds check, so a player
standing on the border shoots a bullet that is *outside*
`[0, width) × [0, height)` while it sits in the bullet list (it is only
discarded by the next `update_bullets` pass).  The invariant does hold
for bullets surviving `update_bullets`, for richer-variant enemies after
a fractional move (thanks to the border walls), and for richer-variant
projectiles at creation. -/

/-- C5 counterexample: the player stands on the border column `x = 39` of
the 40-wide simple-variant grid and shoots right; the created bullet is a
member of the bullet list at `x = 40`, outside the grid. -/
theorem c5_shoot_out_of_bounds_cex :
    (Backup.shoot c5State 1 0).bullets = [⟨40, 10, '→', 1, 0, false⟩] ∧
    ¬ Backup.inBounds 40 20 (40 : ℤ) (10 : ℤ) := by
  decide

/-! ### Claim C6 (corrected)

In the simple variant the bullet glyph is indeed computed from the
direction (`→ ← ↓ ↑`).  In the richer variant `Projectile.__init__`
chooses the glyph from the faction flag alone (`'*'` player, `'+'`
enemy): two projectiles with the *same* direction but different factions
get different glyphs, and all eight player directions share `'*'` — the
glyph is not a function of the movement direction. -/

/-- C6 counterexample: two richer-variant projectiles with identical
direction `(1, 0)` but different factions carry different glyphs, so the
glyph is not determined by the direction vector; and two player
projectiles with different directions `(1, 0)` and `(0, 1)` share the
same glyph. -/
theorem c6_glyph_not_direction_cex :
    (MainGame.mkProjectile 1 1 1 0 false).dx = (MainGame.mkProjectile 1 1 1 0 true).dx ∧
    (MainGame.mkProjectile 1 1 1 0 false).dy = (MainGame.mkProjectile 1 1 1 0 true).dy ∧
    (MainGame.mkProjectile 1 1 1 0 false).char ≠ (MainGame.mkProjectile 1 1 1 0 true).char ∧
    (MainGame.mkProjectile 1 1 1 0 false).char = (MainGame.mkProjectile 1 1 0 1 false).char := by
  decide

/-! ### Helper lemmas: truncation, floors, grids -/

/-- The function `Rat.floor` agrees with the mathematical floor `⌊·⌋` of `ℚ`. -/
theorem rat_floor_eq_intFloor (q : ℚ) : Rat.floor q = ⌊q⌋ := by
  rw [Rat.floor_def', Rat.floor_def]

/-- On nonnegative inputs, Python truncation agrees with the floor. -/
theorem truncQ_of_nonneg {q : ℚ} (h : 0 ≤ q) : truncQ q = ⌊q⌋ := by
  unfold truncQ
  rw [if_neg (not_lt.mpr h), rat_floor_eq_intFloor]

/-- On negative inputs, Python truncation rounds up to at most `0`. -/
theorem truncQ_nonpos_of_neg {q : ℚ} (h : q < 0) : truncQ q ≤ 0 := by
  unfold truncQ
  rw [if_pos h, rat_floor_eq_intFloor]
  have h0 : (0 : ℤ) ≤ ⌊-q⌋ := Int.floor_nonneg.mpr (by linarith)
  omega

/-- A rational whose truncation is at least `1` lies in
`[1, truncQ q + 1)`. -/
theorem truncQ_pos_bounds {q : ℚ} (hk : 1 ≤ truncQ q) :
    1 ≤ q ∧ q < truncQ q + 1 := by
  by_cases hq : q < 0
  · exact absurd (truncQ_nonpos_of_neg hq) (by omega)
  · push_neg at hq
    rw [truncQ_of_nonneg hq] at hk ⊢
    refine ⟨?_, ?_⟩
    · exact_mod_cast (Int.le_floor.mp hk)
    · have h1 := Int.lt_floor_add_one q
      push_cast at h1 ⊢
      linarith

/-- A `setCell` write preserves the number of rows. -/
theorem length_setCell (gr : List (List Char)) (x y : ℤ) (c : Char) :
    (setCell gr x y c).length = gr.length :=
  List.length_set gr _ _

/-- The row a valid index reads is a member of the grid. -/
theorem getD_mem_of_lt {gr : List (List Char)} {n : ℕ} (h : n < gr.length) :
    gr.getD n [] ∈ gr := by
  rw [List.getD_eq_getElem?_getD, List.getElem?_eq_getElem h]
  exact List.getElem_mem h

/-- A `setCell` write preserves the length of every row. -/
theorem rows_setCell {w : ℕ} {gr : List (List Char)}
    (hrows : ∀ r ∈ gr, r.length = w) (x y : ℤ) (c : Char) :
    ∀ r ∈ setCell gr x y c, r.length = w := by
  by_cases hy : y.toNat < gr.length
  · intro r hr
    rcases List.mem_or_eq_of_mem_set hr with h | h
    · exact hrows r h
    · subst h
      rw [List.length_set]
      exact hrows _ (getD_mem_of_lt hy)
  · unfold setCell
    rw [List.set_eq_of_length_le (le_of_not_lt hy)]
    exact hrows

/-- Reading back the cell just written by `setCell`. -/
theorem cellAt_setCell_self {gr : List (List Char)} {x y : ℤ} {c : Char}
    (hy : y.toNat < gr.length) (hx : x.toNat < (gr.getD y.toNat []).length) :
    cellAt (setCell gr x y c) x y = c := by
  unfold cellAt setCell
  simp only [List.getD_eq_getElem?_getD] at hx ⊢
  rw [List.getElem?_set_self hy, Option.getD_some, List.getElem?_set_self hx,
    Option.getD_some]

/-- A fold of `setCell` writes over a grid preserves the number of
rows. -/
theorem foldl_setCell_length {α : Type} (l : List α) (X Y : α → ℤ) (C : α → Char) :
    ∀ gr : List (List Char),
      (l.foldl (fun g a => setCell g (X a) (Y a) (C a)) gr).length = gr.length := by
  induction l with
  | nil => intro gr; rfl
  | cons a t ih =>
    intro gr
    rw [List.foldl_cons, ih, length_setCell]

/-- A fold of `setCell` writes over a grid preserves all row lengths. -/
theorem foldl_setCell_rows {α : Type} (l : List α) (X Y : α → ℤ) (C : α → Char) {w : ℕ} :
    ∀ gr : List (List Char), (∀ r ∈ gr, r.length = w) →
      ∀ r ∈ l.foldl (fun g a => setCell g (X a) (Y a) (C a)) gr, r.length = w := by
  induction l with
  | nil => intro gr h; exact h
  | cons a t ih =>
    intro gr h
    rw [List.foldl_cons]
    exact ih _ (rows_setCell h (X a) (Y a) (C a))

/-- Reading the cell just written by `setCell` on a grid of the given
rectangular shape, with in-bounds signed coordinates. -/
theorem cellAt_setCell_of_shape {gr : List (List Char)} {w h : ℤ}
    (hlen : gr.length = h.toNat) (hrows : ∀ r ∈ gr, r.length = w.toNat)
    {x y : ℤ} (hx : 0 ≤ x) (hx2 : x < w) (hy : 0 ≤ y) (hy2 : y < h) (c : Char) :
    cellAt (setCell gr x y c) x y = c := by
  have hylen : y.toNat < gr.length := by omega
  apply cellAt_setCell_self hylen
  rw [hrows _ (getD_mem_of_lt hylen)]
  omega

/-- C6 amended: in the simple variant the created bullet's glyph is the
function `bulletChar` of the shot direction alone; in the richer variant
the created projectile's glyph is a function of the faction flag alone
(`'*'` for the player, `'+'` for an enemy), independent of the
direction. -/
theorem c6_glyph_determination (gb : Backup.GameState) (dx dy : ℤ)
    (x y pdx pdy : ℚ) (f : Bool) :
    (Backup.shoot gb dx dy).bullets =
      gb.bullets ++ [{ x := gb.player.x + dx, y := gb.player.y + dy,
                       char := Backup.bulletChar dx dy, dx := dx, dy := dy,
                       is_enemy := false }] ∧
    (MainGame.mkProjectile x y pdx pdy f).char =
      (if f then MainGame.ENEMY_ARROW_CHAR else MainGame.ARROW_CHAR) := by
  exact ⟨rfl, rfl⟩

/-- C10: in the richer variant an enemy-originated `shoot` call is never
gated on ammo: it always appends exactly one projectile and leaves the
player record (ammo, health, position), the enemies and the game-over
flag untouched. -/
theorem c10_enemy_shoot_unconditional (g : MainGame.GameState) (x y dx dy : ℚ) :
    (MainGame.shoot g x y dx dy true).projectiles =
      g.projectiles ++ [MainGame.mkProjectile x y dx dy true] ∧
    (MainGame.shoot g x y dx dy true).player = g.player ∧
    (MainGame.shoot g x y dx dy true).enemies = g.enemies ∧
    (MainGame.shoot g x y dx dy true).game_over = g.game_over ∧
    (MainGame.shoot g x y dx dy true).map = g.map := by
  unfold MainGame.shoot
  simp

/-- C9: a projectile whose advanced position leaves
`[0, width) × [0, height)` is dropped by its update step with no other
state change (simple and richer variant alike), and in the richer variant
a projectile whose advanced position lands on a wall tile is likewise
dropped with no effect on any enemy, health or ammo. -/
theorem c9_projectile_removal
    (w h : ℤ) (stb : Backup.BulletsAcc) (b : Backup.Entity)
    (hoob : b.x + b.dx < 0 ∨ w ≤ b.x + b.dx ∨ b.y + b.dy < 0 ∨ h ≤ b.y + b.dy)
    (gm : MainGame.GameState) (dt : ℚ) (stm : MainGame.ProjAcc)
    (p1 : MainGame.Projectile)
    (hoob1 : p1.x + p1.dx * p1.speed * dt < 0 ∨
      (gm.width : ℚ) ≤ p1.x + p1.dx * p1.speed * dt ∨
      p1.y + p1.dy * p1.speed * dt < 0 ∨
      (gm.height : ℚ) ≤ p1.y + p1.dy * p1.speed * dt)
    (stm2 : MainGame.ProjAcc) (p2 : MainGame.Projectile)
    (hin2 : ¬ (p2.x + p2.dx * p2.speed * dt < 0 ∨
      (gm.width : ℚ) ≤ p2.x + p2.dx * p2.speed * dt ∨
      p2.y + p2.dy * p2.speed * dt < 0 ∨
      (gm.height : ℚ) ≤ p2.y + p2.dy * p2.speed * dt))
    (hwall2 : cellAt gm.map (truncQ (p2.x + p2.dx * p2.speed * dt))
      (truncQ (p2.y + p2.dy * p2.speed * dt)) = MainGame.WALL_CHAR) :
    Backup.update_bullet_step w h stb b = stb ∧
    MainGame.update_projectile_step gm dt stm p1 = stm ∧
    MainGame.update_projectile_step gm dt stm2 p2 = stm2 := by
  refine ⟨?_, ?_, ?_⟩
  · unfold Backup.update_bullet_step
    simp only []
    rw [if_pos hoob]
  · unfold MainGame.update_projectile_step
    simp only []
    rw [if_pos hoob1]
  · unfold MainGame.update_projectile_step
    simp only []
    rw [if_neg hin2, if_pos hwall2]

unseal Rat.add Rat.mul Rat.inv Rat.sub in
/-- C9 witness: a concrete bullet leaving the 40 × 20 grid on the right,
a concrete richer-variant projectile leaving on the left, and a concrete
richer-variant projectile advancing into the border wall at `x = 0`
(map `border_map 40 20`, `dt = 1/2`), all dropped with the rest of the
state untouched. -/
theorem c9_projectile_removal_witness :
    Backup.update_bullet_step 40 20
        { kept := [], enemies := [], score := 0 } ⟨39, 10, '→', 1, 0, false⟩ =
      { kept := [], enemies := [], score := 0 } ∧
    MainGame.update_projectile_step
        { width := 40, height := 20, map := MainGame.border_map 40 20,
          player := { x := 5, y := 5 }, enemies := [], projectiles := [],
          game_over := false } (1/2)
        { kept := [], enemies := [], health := 100, ammo := 10, game_over := false }
        (MainGame.mkProjectile 0 10 (-1) 0 false) =
      { kept := [], enemies := [], health := 100, ammo := 10, game_over := false } ∧
    MainGame.update_projectile_step
        { width := 40, height := 20, map := MainGame.border_map 40 20,
          player := { x := 5, y := 5 }, enemies := [], projectiles := [],
          game_over := false } (1/2)
        { kept := [], enemies := [], health := 100, ammo := 10, game_over := false }
        (MainGame.mkProjectile 1 10 (-1) 0 false) =
      { kept := [], enemies := [], health := 100, ammo := 10, game_over := false } := by
  refine (c9_projectile_removal 40 20 _ _ ?_ _ (1/2) _ _ ?_ _ _ ?_ ?_)
  · decide
  · decide
  · decide
  · decide

/-- C8: in the richer variant a player shot with `ammo = 0` is a no-op
(state unchanged, no projectile appended); with `ammo > 0` it appends
exactly one projectile and decrements ammo by exactly one, leaving
health, position and enemies unchanged; and the enemy-kill branch of the
projectile update awards exactly `+2` ammo. -/
theorem c8_ammo_rules
    (g1 : MainGame.GameState) (x1 y1 dx1 dy1 : ℚ) (h0 : g1.player.ammo = 0)
    (g2 : MainGame.GameState) (x2 y2 dx2 dy2 : ℚ) (hpos : 0 < g2.player.ammo)
    (gm : MainGame.GameState) (dt : ℚ) (stm : MainGame.ProjAcc)
    (p : MainGame.Projectile) (eM : MainGame.Enemy)
    (hinm : ¬ (p.x + p.dx * p.speed * dt < 0 ∨
      (gm.width : ℚ) ≤ p.x + p.dx * p.speed * dt ∨
      p.y + p.dy * p.speed * dt < 0 ∨
      (gm.height : ℚ) ≤ p.y + p.dy * p.speed * dt))
    (hwm : ¬ cellAt gm.map (truncQ (p.x + p.dx * p.speed * dt))
      (truncQ (p.y + p.dy * p.speed * dt)) = MainGame.WALL_CHAR)
    (hpm : p.is_enemy = false)
    (hfm : stm.enemies.find? (fun e =>
        Rat.floor e.x == Rat.floor (p.x + p.dx * p.speed * dt) &&
        Rat.floor e.y == Rat.floor (p.y + p.dy * p.speed * dt)) = some eM) :
    MainGame.shoot g1 x1 y1 dx1 dy1 false = g1 ∧
    (MainGame.shoot g2 x2 y2 dx2 dy2 false).projectiles =
      g2.projectiles ++ [MainGame.mkProjectile x2 y2 dx2 dy2 false] ∧
    (MainGame.shoot g2 x2 y2 dx2 dy2 false).player.ammo = g2.player.ammo - 1 ∧
    (MainGame.shoot g2 x2 y2 dx2 dy2 false).player.health = g2.player.health ∧
    (MainGame.shoot g2 x2 y2 dx2 dy2 false).player.x = g2.player.x ∧
    (MainGame.shoot g2 x2 y2 dx2 dy2 false).player.y = g2.player.y ∧
    (MainGame.shoot g2 x2 y2 dx2 dy2 false).enemies = g2.enemies ∧
    (MainGame.update_projectile_step gm dt stm p).ammo = stm.ammo + 2 := by
  refine ⟨?_, ?_⟩
  · unfold MainGame.shoot
    rw [if_pos ⟨rfl, by omega⟩]
  · have hshoot : MainGame.shoot g2 x2 y2 dx2 dy2 false =
        { g2 with player := { g2.player with ammo := g2.player.ammo - 1 },
                  projectiles := g2.projectiles ++ [MainGame.mkProjectile x2 y2 dx2 dy2 false] } := by
      unfold MainGame.shoot
      rw [if_neg (by intro hc; omega)]
      rfl
    rw [hshoot]
    refine ⟨rfl, rfl, rfl, rfl, rfl, rfl, ?_⟩
    unfold MainGame.update_projectile_step
    dsimp only
    rw [if_neg hinm, if_neg hwm, hpm]
    rw [if_neg Bool.false_ne_true, hfm]

unseal Rat.add Rat.mul Rat.inv Rat.sub in
/-- C8 witness: a concrete no-op shot at zero ammo, a concrete successful
shot at ammo `10`, and a concrete player projectile killing the single
enemy at cell `(8, 5)` for `+2` ammo (map `border_map 40 20`,
`dt = 1/2`). -/
theorem c8_ammo_rules_witness :
    MainGame.shoot
        { width := 40, height := 20, map := MainGame.border_map 40 20,
          player := { x := 5, y := 5, ammo := 0 }, enemies := [], projectiles := [],
          game_over := false } 5 5 1 0 false =
      { width := 40, height := 20, map := MainGame.border_map 40 20,
        player := { x := 5, y := 5, ammo := 0 }, enemies := [], projectiles := [],
        game_over := false } ∧
    ((MainGame.shoot
        { width := 40, height := 20, map := MainGame.border_map 40 20,
          player := { x := 5, y := 5 }, enemies := [], projectiles := [],
          game_over := false } 5 5 1 0 false).projectiles =
      [] ++ [MainGame.mkProjectile 5 5 1 0 false] ∧
     (MainGame.shoot
        { width := 40, height := 20, map := MainGame.border_map 40 20,
          player := { x := 5, y := 5 }, enemies := [], projectiles := [],
          game_over := false } 5 5 1 0 false).player.ammo = 10 - 1 ∧
     (MainGame.shoot
        { width := 40, height := 20, map := MainGame.border_map 40 20,
          player := { x := 5, y := 5 }, enemies := [], projectiles := [],
          game_over := false } 5 5 1 0 false).player.health = 100 ∧
     (MainGame.shoot
        { width := 40, height := 20, map := MainGame.border_map 40 20,
          player := { x := 5, y := 5 }, enemies := [], projectiles := [],
          game_over := false } 5 5 1 0 false).player.x = 5 ∧
     (MainGame.shoot
        { width := 40, height := 20, map := MainGame.border_map 40 20,
          player := { x := 5, y := 5 }, enemies := [], projectiles := [],
          game_over := false } 5 5 1 0 false).player.y = 5 ∧
     (MainGame.shoot
        { width := 40, height := 20, map := MainGame.border_map 40 20,
          player := { x := 5, y := 5 }, enemies := [], projectiles := [],
          game_over := false } 5 5 1 0 false).enemies = [] ∧
     (MainGame.update_projectile_step
        { width := 40, height := 20, map := MainGame.border_map 40 20,
          player := { x := 5, y := 5 }, enemies := [], projectiles := [],
          game_over := false } (1/2)
        { kept := [], enemies := [{ x := 8, y := 5 }], health := 100, ammo := 3,
          game_over := false }
        (MainGame.mkProjectile 7 5 1 0 false)).ammo = 3 + 2) := by
  have h := c8_ammo_rules
    { width := 40, height := 20, map := MainGame.border_map 40 20,
      player := { x := 5, y := 5, ammo := 0 }, enemies := [], projectiles := [],
      game_over := false } 5 5 1 0 (by decide)
    { width := 40, height := 20, map := MainGame.border_map 40 20,
      player := { x := 5, y := 5 }, enemies := [], projectiles := [],
      game_over := false } 5 5 1 0 (by decide)
    { width := 40, height := 20, map := MainGame.border_map 40 20,
      player := { x := 5, y := 5 }, enemies := [], projectiles := [],
      game_over := false } (1/2)
    { kept := [], enemies := [{ x := 8, y := 5 }], health := 100, ammo := 3,
      game_over := false }
    (MainGame.mkProjectile 7 5 1 0 false) { x := 8, y := 5 }
    (by decide) (by decide) (by decide) (by decide)
  exact h

/-- C4 amended: when an advanced projectile's cell matches the cell of a
*still-live* opposing entity at the moment the projectile is processed,
both are removed in that tick and exactly once each: the step removes
exactly the first matching entity (the list shrinks by exactly one) and
drops the projectile (the kept list is unchanged), in the simple and the
richer variant alike.  A projectile whose matching entity was already
removed earlier in the same tick finds no live entity and survives
(`c4_double_overlap_cex`). -/
theorem c4_single_removal_per_overlap
    (wb hb : ℤ) (stb : Backup.BulletsAcc) (b eB : Backup.Entity)
    (hinb : ¬ (b.x + b.dx < 0 ∨ wb ≤ b.x + b.dx ∨ b.y + b.dy < 0 ∨ hb ≤ b.y + b.dy))
    (hfb : stb.enemies.find? (fun e => b.x + b.dx == e.x && b.y + b.dy == e.y) = some eB)
    (gm : MainGame.GameState) (dt : ℚ) (stm : MainGame.ProjAcc)
    (p : MainGame.Projectile) (eM : MainGame.Enemy)
    (hinm : ¬ (p.x + p.dx * p.speed * dt < 0 ∨
      (gm.width : ℚ) ≤ p.x + p.dx * p.speed * dt ∨
      p.y + p.dy * p.speed * dt < 0 ∨
      (gm.height : ℚ) ≤ p.y + p.dy * p.speed * dt))
    (hwm : ¬ cellAt gm.map (truncQ (p.x + p.dx * p.speed * dt))
      (truncQ (p.y + p.dy * p.speed * dt)) = MainGame.WALL_CHAR)
    (hpm : p.is_enemy = false)
    (hfm : stm.enemies.find? (fun e =>
        Rat.floor e.x == Rat.floor (p.x + p.dx * p.speed * dt) &&
        Rat.floor e.y == Rat.floor (p.y + p.dy * p.speed * dt)) = some eM) :
    Backup.update_bullet_step wb hb stb b =
      { stb with enemies := stb.enemies.erase eB, score := stb.score + 10 } ∧
    eB ∈ stb.enemies ∧
    (stb.enemies.erase eB).length + 1 = stb.enemies.length ∧
    b.x + b.dx = eB.x ∧ b.y + b.dy = eB.y ∧
    MainGame.update_projectile_step gm dt stm p =
      { stm with enemies := stm.enemies.erase eM, ammo := stm.ammo + 2 } ∧
    eM ∈ stm.enemies ∧
    (stm.enemies.erase eM).length + 1 = stm.enemies.length ∧
    Rat.floor eM.x = Rat.floor (p.x + p.dx * p.speed * dt) ∧
    Rat.floor eM.y = Rat.floor (p.y + p.dy * p.speed * dt) := by
  have hmemB : eB ∈ stb.enemies := List.mem_of_find?_eq_some hfb
  have hmemM : eM ∈ stm.enemies := List.mem_of_find?_eq_some hfm
  have hpredB := List.find?_some hfb
  have hpredM := List.find?_some hfm
  rw [Bool.and_eq_true, beq_iff_eq, beq_iff_eq] at hpredB hpredM
  refine ⟨?_, hmemB, ?_, hpredB.1, hpredB.2, ?_, hmemM, ?_, hpredM.1, hpredM.2⟩
  · unfold Backup.update_bullet_step
    dsimp only
    rw [if_neg hinb, hfb]
  · rw [List.length_erase_of_mem hmemB]
    exact Nat.succ_pred_eq_of_pos (List.length_pos_of_mem hmemB)
  · unfold MainGame.update_projectile_step
    dsimp only
    rw [if_neg hinm, if_neg hwm, hpm]
    rw [if_neg Bool.false_ne_true, hfm]
  · rw [List.length_erase_of_mem hmemM]
    exact Nat.succ_pred_eq_of_pos (List.length_pos_of_mem hmemM)

unseal Rat.add Rat.mul Rat.inv Rat.sub in
/-- C4 witness: a concrete single-overlap tick in each variant — a simple
variant bullet advancing onto the sole enemy at `(5, 5)` and a richer
variant projectile advancing onto the sole enemy at `(8, 5)` — each
removing exactly that enemy and the projectile. -/
theorem c4_single_removal_per_overlap_witness :
    Backup.update_bullet_step 40 20
        { kept := [], enemies := [⟨5, 5, 'E', 0, 0, true⟩], score := 0 }
        ⟨4, 5, '→', 1, 0, false⟩ =
      { kept := [],
        enemies := [⟨5, 5, 'E', 0, 0, true⟩].erase ⟨5, 5, 'E', 0, 0, true⟩,
        score := 0 + 10 } ∧
    (⟨5, 5, 'E', 0, 0, true⟩ : Backup.Entity) ∈ [(⟨5, 5, 'E', 0, 0, true⟩ : Backup.Entity)] ∧
    ([(⟨5, 5, 'E', 0, 0, true⟩ : Backup.Entity)].erase ⟨5, 5, 'E', 0, 0, true⟩).length + 1 =
      [(⟨5, 5, 'E', 0, 0, true⟩ : Backup.Entity)].length ∧
    (4 : ℤ) + 1 = 5 ∧ (5 : ℤ) + 0 = 5 ∧
    MainGame.update_projectile_step
        { width := 40, height := 20, map := MainGame.border_map 40 20,
          player := { x := 5, y := 5 }, enemies := [], projectiles := [],
          game_over := false } (1/2)
        { kept := [], enemies := [{ x := 8, y := 5 }], health := 100, ammo := 3,
          game_over := false }
        (MainGame.mkProjectile 7 5 1 0 false) =
      { kept := [],
        enemies := [({ x := 8, y := 5 } : MainGame.Enemy)].erase { x := 8, y := 5 },
        health := 100, ammo := 3 + 2, game_over := false } ∧
    ({ x := 8, y := 5 } : MainGame.Enemy) ∈ [({ x := 8, y := 5 } : MainGame.Enemy)] ∧
    ([({ x := 8, y := 5 } : MainGame.Enemy)].erase { x := 8, y := 5 }).length + 1 =
      [({ x := 8, y := 5 } : MainGame.Enemy)].length ∧
    Rat.floor (8 : ℚ) = Rat.floor ((7 : ℚ) + 1 * 2 * (1/2)) ∧
    Rat.floor (5 : ℚ) = Rat.floor ((5 : ℚ) + 0 * 2 * (1/2)) := by
  have h := c4_single_removal_per_overlap 40 20
    { kept := [], enemies := [⟨5, 5, 'E', 0, 0, true⟩], score := 0 }
    ⟨4, 5, '→', 1, 0, false⟩ ⟨5, 5, 'E', 0, 0, true⟩
    (by decide) (by decide)
    { width := 40, height := 20, map := MainGame.border_map 40 20,
      player := { x := 5, y := 5 }, enemies := [], projectiles := [],
      game_over := false } (1/2)
    { kept := [], enemies := [{ x := 8, y := 5 }], health := 100, ammo := 3,
      game_over := false }
    (MainGame.mkProjectile 7 5 1 0 false) { x := 8, y := 5 }
    (by decide) (by decide) (by decide) (by decide)
  exact h

/-- A projectile-update step never increases the player's health. -/
theorem update_projectile_step_health_le (g : MainGame.GameState) (dt : ℚ)
    (st : MainGame.ProjAcc) (p : MainGame.Projectile) :
    (MainGame.update_projectile_step g dt st p).health ≤ st.health := by
  unfold MainGame.update_projectile_step
  dsimp only
  split
  · exact le_rfl
  split
  · exact le_rfl
  split
  · split
    · dsimp only; omega
    · exact le_rfl
  · split
    · exact le_rfl
    · exact le_rfl

/-- A projectile-update step preserves the invariant "the game-over flag
is set exactly when health is ≤ 0". -/
theorem update_projectile_step_inv (g : MainGame.GameState) (dt : ℚ)
    (st : MainGame.ProjAcc) (p : MainGame.Projectile)
    (hJ : st.game_over = true ↔ st.health ≤ 0) :
    ((MainGame.update_projectile_step g dt st p).game_over = true ↔
      (MainGame.update_projectile_step g dt st p).health ≤ 0) := by
  unfold MainGame.update_projectile_step
  dsimp only
  split
  · exact hJ
  split
  · exact hJ
  split
  · split
    · dsimp only
      by_cases hh : st.health - 10 ≤ 0
      · rw [if_pos hh]
        simp [hh]
      · rw [if_neg hh]
        rw [hJ]
        omega
    · exact hJ
  · split
    · exact hJ
    · exact hJ

/-- In a projectile-update step, the game-over flag becomes set exactly
when the step is a hit that leaves health ≤ 0. -/
theorem update_projectile_step_game_over_eq (g : MainGame.GameState) (dt : ℚ)
    (st : MainGame.ProjAcc) (p : MainGame.Projectile) :
    ((MainGame.update_projectile_step g dt st p).game_over = true ↔
      (st.game_over = true ∨
        ((MainGame.update_projectile_step g dt st p).health < st.health ∧
         (MainGame.update_projectile_step g dt st p).health ≤ 0))) := by
  unfold MainGame.update_projectile_step
  dsimp only
  split
  · simp
  split
  · simp
  split
  · split
    · dsimp only
      by_cases hh : st.health - 10 ≤ 0
      · rw [if_pos hh]
        constructor
        · intro _
          exact Or.inr ⟨by omega, hh⟩
        · intro _
          rfl
      · rw [if_neg hh]
        constructor
        · exact Or.inl
        · rintro (hgo | ⟨h1, h2⟩)
          · exact hgo
          · exact absurd h2 hh
    · simp
  · split
    · simp
    · simp

/-- Folding the projectile-update step over any projectile list preserves
the game-over/health invariant and never increases health. -/
theorem update_projectiles_fold_inv (g : MainGame.GameState) (dt : ℚ) :
    ∀ (l : List MainGame.Projectile) (st : MainGame.ProjAcc),
      (st.game_over = true ↔ st.health ≤ 0) →
      (((l.foldl (MainGame.update_projectile_step g dt) st).game_over = true ↔
        (l.foldl (MainGame.update_projectile_step g dt) st).health ≤ 0) ∧
       (l.foldl (MainGame.update_projectile_step g dt) st).health ≤ st.health) := by
  intro l
  induction l with
  | nil => intro st h; exact ⟨h, le_rfl⟩
  | cons p t ih =>
    intro st h
    rw [List.foldl_cons]
    have h1 := update_projectile_step_inv g dt st p h
    have h2 := update_projectile_step_health_le g dt st p
    have h3 := ih _ h1
    exact ⟨h3.1, h3.2.trans h2⟩

/-- C3 amended: if the game-over flag agrees with "health ≤ 0" before a
projectile tick (as it does in every reachable state — initially health
is 100 and the flag is clear), it still agrees after the tick: the flag
is set during the tick in which health first drops to ≤ 0 and never
before.  Health never increases; but it *can* end negative (see
`c3_negative_health_cex`), each hit subtracting exactly 10 and setting
the flag exactly when the resulting health is ≤ 0. -/
theorem c3_game_over_iff_health_nonpos (g : MainGame.GameState) (dt : ℚ)
    (hinv : g.game_over = true ↔ g.player.health ≤ 0) :
    ((MainGame.update_projectiles g dt).game_over = true ↔
      (MainGame.update_projectiles g dt).player.health ≤ 0) ∧
    (MainGame.update_projectiles g dt).player.health ≤ g.player.health ∧
    ∀ (st : MainGame.ProjAcc) (p : MainGame.Projectile),
      ((MainGame.update_projectile_step g dt st p).game_over = true ↔
        (st.game_over = true ∨
          ((MainGame.update_projectile_step g dt st p).health < st.health ∧
           (MainGame.update_projectile_step g dt st p).health ≤ 0))) := by
  have h := update_projectiles_fold_inv g dt g.projectiles
    { kept := [], enemies := g.enemies, health := g.player.health,
      ammo := g.player.ammo, game_over := g.game_over } hinv
  unfold MainGame.update_projectiles
  dsimp only
  exact ⟨h.1, h.2, fun st p => update_projectile_step_game_over_eq g dt st p⟩

unseal Rat.add Rat.mul Rat.inv Rat.sub in
/-- C3 witness: at the concrete two-hit state (health 10, flag clear,
so the invariant hypothesis holds), after the tick the flag is set and
health is `-10 ≤ 0 ≤ 10`, instantiating the theorem's conclusion. -/
theorem c3_game_over_iff_health_nonpos_witness :
    ((MainGame.update_projectiles c3State (1/2)).game_over = true ↔
      (MainGame.update_projectiles c3State (1/2)).player.health ≤ 0) ∧
    (MainGame.update_projectiles c3State (1/2)).player.health ≤ c3State.player.health := by
  have h := c3_game_over_iff_health_nonpos c3State (1/2) (by decide)
  exact ⟨h.1, h.2.1⟩

/-- Bullets kept by the simple variant's per-bullet update steps are
always inside the grid (out-of-bounds bullets are dropped, and a kept
bullet has just passed the bounds check). -/
theorem update_bullets_kept_inBounds (w h : ℤ) :
    ∀ (l : List Backup.Entity) (st : Backup.BulletsAcc),
      (∀ b ∈ st.kept, Backup.inBounds w h b.x b.y) →
      ∀ b ∈ (l.foldl (Backup.update_bullet_step w h) st).kept,
        Backup.inBounds w h b.x b.y := by
  intro l
  induction l with
  | nil => intro st hst; exact hst
  | cons a t ih =>
    intro st hst
    rw [List.foldl_cons]
    apply ih
    unfold Backup.update_bullet_step
    dsimp only
    split
    · exact hst
    · rename_i hin
      split
      · exact hst
      · intro b hb
        rcases List.mem_append.mp hb with hmem | hmem
        · exact hst b hmem
        · rcases List.mem_singleton.mp hmem with rfl
          push_neg at hin
          unfold Backup.inBounds
          dsimp only
          omega

/-- The cell content of `border_map` at an in-range coordinate. -/
theorem cellAt_border_map {w h x y : ℤ} (hx : 0 ≤ x) (hx2 : x < w)
    (hy : 0 ≤ y) (hy2 : y < h) :
    cellAt (MainGame.border_map w h) x y =
      (if y = 0 ∨ y = h - 1 ∨ x = 0 ∨ x = w - 1
       then MainGame.WALL_CHAR else MainGame.FLOOR_CHAR) := by
  unfold cellAt MainGame.border_map
  have hyn : y.toNat < h.toNat := by omega
  have hxn : x.toNat < w.toNat := by omega
  simp only [List.getD_eq_getElem?_getD]
  rw [List.getElem?_map, List.getElem?_range hyn]
  simp only [Option.map_some', Option.getD_some]
  rw [List.getElem?_map, List.getElem?_range hxn]
  simp only [Option.map_some', Option.getD_some]
  apply if_congr _ rfl rfl
  constructor
  · intro hc; omega
  · intro hc; omega

/-- The enemy-step component is `0`, or `1` with the displacement
strictly positive: an enemy only ever steps toward (never past or away
from) the player on each axis. -/
theorem stepComponent_cases (d o : ℤ) :
    Backup.stepComponent d o = 0 ∨ (Backup.stepComponent d o = 1 ∧ 0 < d) := by
  unfold Backup.stepComponent
  split
  · rename_i hc
    exact Or.inr ⟨rfl, hc.1⟩
  · exact Or.inl rfl

/-- A simple-variant enemy chase step keeps the enemy inside the grid
whenever the player is inside: each axis steps by at most one tile and
only strictly toward the player. -/
theorem move_enemy_inBounds {w h : ℤ} {p e : Backup.Entity}
    (hp : Backup.inBounds w h p.x p.y) (he : Backup.inBounds w h e.x e.y) :
    Backup.inBounds w h (Backup.move_enemy p e).x (Backup.move_enemy p e).y := by
  unfold Backup.move_enemy
  split
  · exact he
  · unfold Backup.inBounds at hp he ⊢
    dsimp only
    rcases stepComponent_cases (p.x - e.x) (p.y - e.y) with hx | ⟨hx, hdx⟩ <;>
      rcases stepComponent_cases (p.y - e.y) (p.x - e.x) with hy | ⟨hy, hdy⟩ <;>
      rw [hx, hy] <;> omega

/-- Projectiles kept by the richer variant's per-projectile update steps
are always inside the grid (out-of-bounds projectiles are dropped, and a
kept projectile has just passed the bounds check). -/
theorem update_projectiles_kept_inBoundsQ (g : MainGame.GameState) (dt : ℚ) :
    ∀ (l : List MainGame.Projectile) (st : MainGame.ProjAcc),
      (∀ p ∈ st.kept, MainGame.inBoundsQ g.width g.height p.x p.y) →
      ∀ p ∈ (l.foldl (MainGame.update_projectile_step g dt) st).kept,
        MainGame.inBoundsQ g.width g.height p.x p.y := by
  intro l
  induction l with
  | nil => intro st hst; exact hst
  | cons a t ih =>
    intro st hst
    rw [List.foldl_cons]
    apply ih
    unfold MainGame.update_projectile_step
    dsimp only
    split
    · exact hst
    · rename_i hin
      split
      · exact hst
      · split
        · split
          · exact hst
          · intro p hp
            rcases List.mem_append.mp hp with hm | hm
            · exact hst p hm
            · rcases List.mem_singleton.mp hm with rfl
              push_neg at hin
              unfold MainGame.inBoundsQ
              dsimp only
              exact ⟨hin.1, hin.2.1, hin.2.2.1, hin.2.2.2⟩
        · split
          · exact hst
          · intro p hp
            rcases List.mem_append.mp hp with hm | hm
            · exact hst p hm
            · rcases List.mem_singleton.mp hm with rfl
              push_neg at hin
              unfold MainGame.inBoundsQ
              dsimp only
              exact ⟨hin.1, hin.2.1, hin.2.2.1, hin.2.2.2⟩

/-- C5 amended: in both variants every live entity stays inside
`[0, width) × [0, height)` — the player after any movement key (both
variants bounds-check the move), a simple-variant enemy after a
`move_enemies` chase step (given an in-bounds player), a projectile that
survives a projectile-update tick (both variants), a richer-variant
enemy after a fractional move on any map whose border cells are walls
(as `generate_map` always produces), and a richer-variant projectile at
creation (it starts on its shooter's cell).  The single exception,
forced by the counterexample: a simple-variant projectile immediately
after creation — `Game.shoot` places it one tile ahead of the player
without any bounds check, so a border player's bullet spends the rest of
its creation tick out of bounds (`c5_shoot_out_of_bounds_cex`) until the
same frame's `update_bullets` discards it. -/
theorem c5_bounds_invariant_amended
    (gb : Backup.GameState) (c : Char)
    (hbp : Backup.inBounds gb.width gb.height gb.player.x gb.player.y)
    (hbe : ∀ e ∈ gb.enemies, Backup.inBounds gb.width gb.height e.x e.y)
    (gm : MainGame.GameState) (e : MainGame.Enemy) (dx dy dt : ℚ) (mdx mdy : ℤ)
    (hwall : ∀ x y : ℤ, 0 ≤ x → x < gm.width → 0 ≤ y → y < gm.height →
      (x = 0 ∨ x = gm.width - 1 ∨ y = 0 ∨ y = gm.height - 1) →
      cellAt gm.map x y = MainGame.WALL_CHAR)
    (he : MainGame.inBoundsQ gm.width gm.height e.x e.y)
    (hmp : Backup.inBounds gm.width gm.height gm.player.x gm.player.y)
    (x y pdx pdy : ℚ) (f : Bool)
    (hxy : MainGame.inBoundsQ gm.width gm.height x y) :
    Backup.inBounds gb.width gb.height (Backup.move_player gb c).player.x
      (Backup.move_player gb c).player.y ∧
    (∀ e2 ∈ (Backup.move_enemies gb).enemies,
        Backup.inBounds gb.width gb.height e2.x e2.y) ∧
    (∀ b ∈ (Backup.update_bullets gb).bullets,
        Backup.inBounds gb.width gb.height b.x b.y) ∧
    Backup.inBounds gm.width gm.height
      (MainGame.move_entity gm gm.player mdx mdy).x
      (MainGame.move_entity gm gm.player mdx mdy).y ∧
    MainGame.inBoundsQ gm.width gm.height
      (MainGame.update_enemy_move gm e dx dy dt).x
      (MainGame.update_enemy_move gm e dx dy dt).y ∧
    (∀ p ∈ (MainGame.shoot gm x y pdx pdy f).projectiles,
        p ∈ gm.projectiles ∨ MainGame.inBoundsQ gm.width gm.height p.x p.y) ∧
    (∀ p ∈ (MainGame.update_projectiles gm dt).projectiles,
        MainGame.inBoundsQ gm.width gm.height p.x p.y) := by
  refine ⟨?_, ?_, ?_, ?_, ?_, ?_, ?_⟩
  · unfold Backup.move_player
    split_ifs with h1 h2 h3 h4
    · obtain ⟨-, hy⟩ := h1
      unfold Backup.inBounds at hbp ⊢
      dsimp only
      omega
    · obtain ⟨-, hy⟩ := h2
      unfold Backup.inBounds at hbp ⊢
      dsimp only
      omega
    · obtain ⟨-, hx⟩ := h3
      unfold Backup.inBounds at hbp ⊢
      dsimp only
      omega
    · obtain ⟨-, hx⟩ := h4
      unfold Backup.inBounds at hbp ⊢
      dsimp only
      omega
    · exact hbp
  · intro e2 he2
    unfold Backup.move_enemies at he2
    dsimp only at he2
    rcases List.mem_map.mp he2 with ⟨e0, he0, rfl⟩
    exact move_enemy_inBounds hbp (hbe e0 he0)
  · unfold Backup.update_bullets
    dsimp only
    exact update_bullets_kept_inBounds gb.width gb.height gb.bullets _
      (fun b hb => absurd hb (List.not_mem_nil b))
  · unfold MainGame.move_entity
    dsimp only
    split
    · rename_i hacc
      exact ⟨hacc.1, hacc.2.1, hacc.2.2.1, hacc.2.2.2.1⟩
    · exact hmp
  · unfold MainGame.update_enemy_move
    dsimp only
    split
    · rename_i hacc
      obtain ⟨h1, h2, h3, h4, h5⟩ := hacc
      dsimp only
      have hWF : MainGame.FLOOR_CHAR ≠ MainGame.WALL_CHAR := by decide
      have hx0 : truncQ (e.x + dx * e.speed * dt) ≠ 0 := by
        intro h0
        exact hWF (h5 ▸ hwall _ _ h1 h2 h3 h4 (Or.inl h0))
      have hx1 : truncQ (e.x + dx * e.speed * dt) ≠ gm.width - 1 := by
        intro h0
        exact hWF (h5 ▸ hwall _ _ h1 h2 h3 h4 (Or.inr (Or.inl h0)))
      have hy0 : truncQ (e.y + dy * e.speed * dt) ≠ 0 := by
        intro h0
        exact hWF (h5 ▸ hwall _ _ h1 h2 h3 h4 (Or.inr (Or.inr (Or.inl h0))))
      have hy1 : truncQ (e.y + dy * e.speed * dt) ≠ gm.height - 1 := by
        intro h0
        exact hWF (h5 ▸ hwall _ _ h1 h2 h3 h4 (Or.inr (Or.inr (Or.inr h0))))
      have hbx := truncQ_pos_bounds (q := e.x + dx * e.speed * dt) (by omega)
      have hby := truncQ_pos_bounds (q := e.y + dy * e.speed * dt) (by omega)
      have hcx : ((truncQ (e.x + dx * e.speed * dt) : ℤ) : ℚ) ≤ (gm.width : ℚ) - 2 := by
        have : truncQ (e.x + dx * e.speed * dt) ≤ gm.width - 2 := by omega
        exact_mod_cast this
      have hcy : ((truncQ (e.y + dy * e.speed * dt) : ℤ) : ℚ) ≤ (gm.height : ℚ) - 2 := by
        have : truncQ (e.y + dy * e.speed * dt) ≤ gm.height - 2 := by omega
        exact_mod_cast this
      refine ⟨by linarith [hbx.1], by linarith [hbx.2], by linarith [hby.1], by linarith [hby.2]⟩
    · exact he
  · unfold MainGame.shoot
    split
    · intro p hp
      exact Or.inl hp
    · dsimp only
      intro p hp
      have : p ∈ (if f then gm
          else { gm with player := { gm.player with ammo := gm.player.ammo - 1 } }).projectiles
          ++ [MainGame.mkProjectile x y pdx pdy f] := hp
      rcases List.mem_append.mp this with hmem | hmem
      · left
        rcases Bool.eq_false_or_eq_true f with hf | hf <;> rw [hf] at hmem <;> exact hmem
      · right
        rcases List.mem_singleton.mp hmem with rfl
        exact hxy
  · unfold MainGame.update_projectiles
    dsimp only
    exact update_projectiles_kept_inBoundsQ gm dt gm.projectiles _
      (fun p hp => absurd hp (List.not_mem_nil p))

unseal Rat.add Rat.mul Rat.inv Rat.sub in
/-- C5 witness: concrete in-bounds states for every conjunct — a simple
variant player pressing `'w'`, its enemy at `(10, 5)` after a chase step,
a bullet surviving its tick, and on the concrete bordered 40 × 20 map a
richer-variant player moving right, an enemy at `(5/2, 7/2)` after a
fractional move, a projectile shot from the player's cell `(5, 5)`, and
a projectile surviving the `dt = 1/2` projectile tick. -/
theorem c5_bounds_invariant_amended_witness :
    Backup.inBounds 40 20
      (Backup.move_player
        { width := 40, height := 20, player := ⟨20, 10, '@', 0, 0, false⟩,
          bullets := [⟨4, 5, '→', 1, 0, false⟩],
          enemies := [⟨10, 5, 'E', 0, 0, true⟩], score := 0,
          game_over := false } 'w').player.x
      (Backup.move_player
        { width := 40, height := 20, player := ⟨20, 10, '@', 0, 0, false⟩,
          bullets := [⟨4, 5, '→', 1, 0, false⟩],
          enemies := [⟨10, 5, 'E', 0, 0, true⟩], score := 0,
          game_over := false } 'w').player.y ∧
    (∀ e2 ∈ (Backup.move_enemies
        { width := 40, height := 20, player := ⟨20, 10, '@', 0, 0, false⟩,
          bullets := [⟨4, 5, '→', 1, 0, false⟩],
          enemies := [⟨10, 5, 'E', 0, 0, true⟩], score := 0,
          game_over := false }).enemies,
      Backup.inBounds 40 20 e2.x e2.y) ∧
    (∀ b ∈ (Backup.update_bullets
        { width := 40, height := 20, player := ⟨20, 10, '@', 0, 0, false⟩,
          bullets := [⟨4, 5, '→', 1, 0, false⟩],
          enemies := [⟨10, 5, 'E', 0, 0, true⟩], score := 0,
          game_over := false }).bullets,
      Backup.inBounds 40 20 b.x b.y) ∧
    Backup.inBounds 40 20
      (MainGame.move_entity
        { width := 40, height := 20, map := MainGame.border_map 40 20,
          player := { x := 5, y := 5 }, enemies := [],
          projectiles := [MainGame.mkProjectile 7 5 1 0 false],
          game_over := false } { x := 5, y := 5 } 1 0).x
      (MainGame.move_entity
        { width := 40, height := 20, map := MainGame.border_map 40 20,
          player := { x := 5, y := 5 }, enemies := [],
          projectiles := [MainGame.mkProjectile 7 5 1 0 false],
          game_over := false } { x := 5, y := 5 } 1 0).y ∧
    MainGame.inBoundsQ 40 20
      (MainGame.update_enemy_move
        { width := 40, height := 20, map := MainGame.border_map 40 20,
          player := { x := 5, y := 5 }, enemies := [],
          projectiles := [MainGame.mkProjectile 7 5 1 0 false],
          game_over := false } { x := 5/2, y := 7/2 } 1 0 (1/2)).x
      (MainGame.update_enemy_move
        { width := 40, height := 20, map := MainGame.border_map 40 20,
          player := { x := 5, y := 5 }, enemies := [],
          projectiles := [MainGame.mkProjectile 7 5 1 0 false],
          game_over := false } { x := 5/2, y := 7/2 } 1 0 (1/2)).y ∧
    (∀ p ∈ (MainGame.shoot
        { width := 40, height := 20, map := MainGame.border_map 40 20,
          player := { x := 5, y := 5 }, enemies := [],
          projectiles := [MainGame.mkProjectile 7 5 1 0 false],
          game_over := false } 5 5 1 0 false).projectiles,
      p ∈ [MainGame.mkProjectile 7 5 1 0 false] ∨
        MainGame.inBoundsQ 40 20 p.x p.y) ∧
    (∀ p ∈ (MainGame.update_projectiles
        { width := 40, height := 20, map := MainGame.border_map 40 20,
          player := { x := 5, y := 5 }, enemies := [],
          projectiles := [MainGame.mkProjectile 7 5 1 0 false],
          game_over := false } (1/2)).projectiles,
      MainGame.inBoundsQ 40 20 p.x p.y) := by
  have h := c5_bounds_invariant_amended
    { width := 40, height := 20, player := ⟨20, 10, '@', 0, 0, false⟩,
      bullets := [⟨4, 5, '→', 1, 0, false⟩],
      enemies := [⟨10, 5, 'E', 0, 0, true⟩], score := 0,
      game_over := false } 'w' (by decide) (by decide)
    { width := 40, height := 20, map := MainGame.border_map 40 20,
      player := { x := 5, y := 5 }, enemies := [],
      projectiles := [MainGame.mkProjectile 7 5 1 0 false],
      game_over := false } { x := 5/2, y := 7/2 } 1 0 (1/2) 1 0
    (by
      intro x y hx hx2 hy hy2 hb
      dsimp only at hx2 hy2 hb ⊢
      have hc : y = 0 ∨ y = (20 : ℤ) - 1 ∨ x = 0 ∨ x = (40 : ℤ) - 1 := by omega
      rw [cellAt_border_map hx hx2 hy hy2, if_pos hc])
    (by decide) (by decide) 5 5 1 0 false (by decide)
  exact h

/-- A simple-variant bullet step either leaves the enemy list unchanged
or erases exactly the first enemy on the bullet's cell. -/
theorem update_bullet_step_enemies_dichotomy (w h : ℤ)
    (st : Backup.BulletsAcc) (b : Backup.Entity) :
    (Backup.update_bullet_step w h st b).enemies = st.enemies ∨
    ∃ e ∈ st.enemies,
      (Backup.update_bullet_step w h st b).enemies = st.enemies.erase e ∧
      (Backup.update_bullet_step w h st b).enemies.length + 1 = st.enemies.length := by
  unfold Backup.update_bullet_step
  dsimp only
  split
  · exact Or.inl rfl
  · split
    · rename_i e heq
      have hmem := List.mem_of_find?_eq_some heq
      refine Or.inr ⟨e, hmem, rfl, ?_⟩
      dsimp only
      rw [List.length_erase_of_mem hmem]
      exact Nat.succ_pred_eq_of_pos (List.length_pos_of_mem hmem)
    · exact Or.inl rfl

/-- A richer-variant projectile step either leaves the enemy list
unchanged or erases exactly the first enemy on the projectile's cell. -/
theorem update_projectile_step_enemies_dichotomy (g : MainGame.GameState) (dt : ℚ)
    (st : MainGame.ProjAcc) (p : MainGame.Projectile) :
    (MainGame.update_projectile_step g dt st p).enemies = st.enemies ∨
    ∃ e ∈ st.enemies,
      (MainGame.update_projectile_step g dt st p).enemies = st.enemies.erase e ∧
      (MainGame.update_projectile_step g dt st p).enemies.length + 1 = st.enemies.length := by
  unfold MainGame.update_projectile_step
  dsimp only
  split
  · exact Or.inl rfl
  split
  · exact Or.inl rfl
  split
  · split
    · exact Or.inl rfl
    · exact Or.inl rfl
  · split
    · rename_i e heq
      have hmem := List.mem_of_find?_eq_some heq
      refine Or.inr ⟨e, hmem, rfl, ?_⟩
      dsimp only
      rw [List.length_erase_of_mem hmem]
      exact Nat.succ_pred_eq_of_pos (List.length_pos_of_mem hmem)
    · exact Or.inl rfl

/-- Folding projectile steps only ever shrinks the enemy list (it is a
sublist of the original). -/
theorem update_projectiles_enemies_sublist_aux (g : MainGame.GameState) (dt : ℚ) :
    ∀ (l : List MainGame.Projectile) (st : MainGame.ProjAcc),
      (l.foldl (MainGame.update_projectile_step g dt) st).enemies.Sublist st.enemies := by
  intro l
  induction l with
  | nil => intro st; exact List.Sublist.refl _
  | cons p t ih =>
    intro st
    rw [List.foldl_cons]
    refine (ih _).trans ?_
    rcases update_projectile_step_enemies_dichotomy g dt st p with h | ⟨e, _, h, _⟩
    · rw [h]
    · rw [h]
      exact List.erase_sublist e st.enemies

/-- C7: each projectile-update step removes either no enemy or exactly
one (the killed one), in both variants; a whole projectile tick never
adds enemies (the new list is a sublist of the old); an enemy tick
preserves the enemy count; and the `run` loop's win prompt is shown
exactly when the enemy collection is empty — hence the first tick whose
kill empties the collection triggers the win state. -/
theorem c7_kill_decrement_and_win
    (w h : ℤ) (stb : Backup.BulletsAcc) (b : Backup.Entity)
    (gm : MainGame.GameState) (dt : ℚ) (stm : MainGame.ProjAcc)
    (p : MainGame.Projectile)
    (g2 : MainGame.GameState) (dt2 : ℚ) (choices : List MainGame.EnemyTickChoice)
    (hch : choices.length = g2.enemies.length) :
    ((Backup.update_bullet_step w h stb b).enemies = stb.enemies ∨
      ∃ e ∈ stb.enemies,
        (Backup.update_bullet_step w h stb b).enemies = stb.enemies.erase e ∧
        (Backup.update_bullet_step w h stb b).enemies.length + 1 = stb.enemies.length) ∧
    ((MainGame.update_projectile_step gm dt stm p).enemies = stm.enemies ∨
      ∃ e ∈ stm.enemies,
        (MainGame.update_projectile_step gm dt stm p).enemies = stm.enemies.erase e ∧
        (MainGame.update_projectile_step gm dt stm p).enemies.length + 1 =
          stm.enemies.length) ∧
    (MainGame.update_projectiles gm dt).enemies.Sublist gm.enemies ∧
    (MainGame.update_enemies g2 dt2 choices).enemies.length = g2.enemies.length ∧
    (∀ g3 : MainGame.GameState, MainGame.run_win_check g3 = true ↔ g3.enemies = []) := by
  refine ⟨update_bullet_step_enemies_dichotomy w h stb b,
    update_projectile_step_enemies_dichotomy gm dt stm p, ?_, ?_, ?_⟩
  · unfold MainGame.update_projectiles
    dsimp only
    exact update_projectiles_enemies_sublist_aux gm dt gm.projectiles _
  · simp [MainGame.update_enemies, List.length_zip, hch]
  · intro g3
    simp [MainGame.run_win_check, List.isEmpty_iff]

unseal Rat.add Rat.mul Rat.inv Rat.sub in
/-- C7 witness: with one enemy and one per-enemy choice, an enemy tick
preserves the enemy count, and the win check answers exactly the
emptiness of the enemy collection. -/
theorem c7_kill_decrement_and_win_witness :
    (MainGame.update_enemies
        { width := 40, height := 20, map := MainGame.border_map 40 20,
          player := { x := 5, y := 5 }, enemies := [{ x := 3, y := 3 }],
          projectiles := [], game_over := false } 1
        [{ dx := 1, dy := 0, fires := false, sdx := 0, sdy := 0 }]).enemies.length =
      [({ x := 3, y := 3 } : MainGame.Enemy)].length ∧
    (∀ g3 : MainGame.GameState, MainGame.run_win_check g3 = true ↔ g3.enemies = []) := by
  have h := c7_kill_decrement_and_win 40 20
    { kept := [], enemies := [], score := 0 } ⟨0, 0, '→', 1, 0, false⟩
    { width := 40, height := 20, map := MainGame.border_map 40 20,
      player := { x := 5, y := 5 }, enemies := [], projectiles := [],
      game_over := false } (1/2)
    { kept := [], enemies := [], health := 100, ammo := 10, game_over := false }
    (MainGame.mkProjectile 1 1 1 0 false)
    { width := 40, height := 20, map := MainGame.border_map 40 20,
      player := { x := 5, y := 5 }, enemies := [{ x := 3, y := 3 }],
      projectiles := [], game_over := false } 1
    [{ dx := 1, dy := 0, fires := false, sdx := 0, sdy := 0 }] (by decide)
  exact ⟨h.2.2.2.1, h.2.2.2.2⟩

/-- C2 amended: in the simple variant the player is drawn last, so the
rendered cell under the player always shows the player's glyph.  In the
richer variant the player is drawn *before* enemies and projectiles, so
an entity sharing the player's cell overwrites the player's glyph: with a
single enemy on the player's cell and no projectiles, the rendered cell
shows the enemy's glyph. -/
theorem c2_draw_order_amended
    (gb : Backup.GameState)
    (hbx : 0 ≤ gb.player.x) (hbx2 : gb.player.x < gb.width)
    (hby : 0 ≤ gb.player.y) (hby2 : gb.player.y < gb.height)
    (gm : MainGame.GameState) (e : MainGame.Enemy)
    (hmlen : gm.map.length = gm.height.toNat)
    (hmrows : ∀ r ∈ gm.map, r.length = gm.width.toNat)
    (hme : gm.enemies = [e]) (hmp : gm.projectiles = [])
    (hex : truncQ e.x = gm.player.x) (hey : truncQ e.y = gm.player.y)
    (hmx : 0 ≤ gm.player.x) (hmx2 : gm.player.x < gm.width)
    (hmy : 0 ≤ gm.player.y) (hmy2 : gm.player.y < gm.height) :
    cellAt (Backup.draw_grid gb) gb.player.x gb.player.y = gb.player.char ∧
    cellAt (MainGame.render_grid gm) gm.player.x gm.player.y = e.char := by
  constructor
  · unfold Backup.draw_grid
    dsimp only
    refine cellAt_setCell_of_shape ?_ ?_ hbx hbx2 hby hby2 _
    · exact (foldl_setCell_length gb.enemies _ _ _ _).trans
        ((foldl_setCell_length gb.bullets _ _ _ _).trans
          (List.length_replicate _ _))
    · refine foldl_setCell_rows gb.enemies _ _ _ _
        (foldl_setCell_rows gb.bullets _ _ _ _ ?_)
      intro r hr
      rw [List.eq_of_mem_replicate hr]
      exact List.length_replicate _ _
  · unfold MainGame.render_grid
    rw [hme, hmp]
    dsimp only [List.foldl_cons, List.foldl_nil]
    rw [hex, hey]
    refine cellAt_setCell_of_shape ?_ ?_ hmx hmx2 hmy hmy2 _
    · exact (length_setCell _ _ _ _).trans hmlen
    · exact rows_setCell hmrows _ _ _

unseal Rat.add Rat.mul Rat.inv Rat.sub in
/-- C2 witness: a concrete in-bounds simple-variant state rendering `'@'`
under the player, and the concrete richer-variant state of the
counterexample (enemy on the player's cell of the bordered 40 × 20 map)
rendering the enemy's glyph there. -/
theorem c2_draw_order_amended_witness :
    cellAt (Backup.draw_grid
      { width := 40, height := 20, player := ⟨20, 10, '@', 0, 0, false⟩,
        bullets := [], enemies := [⟨20, 10, 'E', 0, 0, true⟩], score := 0,
        game_over := false }) 20 10 = '@' ∧
    cellAt (MainGame.render_grid c2State) 5 5 =
      ({ x := 5, y := 5 } : MainGame.Enemy).char := by
  have h := c2_draw_order_amended
    { width := 40, height := 20, player := ⟨20, 10, '@', 0, 0, false⟩,
      bullets := [], enemies := [⟨20, 10, 'E', 0, 0, true⟩], score := 0,
      game_over := false }
    (by decide) (by decide) (by decide) (by decide)
    c2State { x := 5, y := 5 }
    (by decide) (by decide) (by decide) (by decide)
    (by decide) (by decide) (by decide) (by decide) (by decide) (by decide)
  exact h

/-- Exact real-valued characterisation of the enemy-step component:
writing `v = d / sqrt(d² + o²)` (the quantity Python computes before the
truncating `int(v + 0.5)`), and noting `v ∈ [-1, 1]` so that
`int(v + 0.5)` is `1` for `v + 1/2 ≥ 1` and `0` for `v + 1/2 ∈ (-1/2, 1)`
— truncation toward zero never yields `-1` on `[-1/2, 3/2]` —
`stepComponent` is `1` exactly on `v ≥ 1/2` and `0` exactly on
`v < 1/2`. -/
theorem stepComponent_eq_trunc_real (d o : ℤ) (h : ¬ (d = 0 ∧ o = 0)) :
    ((1 : ℝ) / 2 ≤ (d : ℝ) / Real.sqrt ((d : ℝ) ^ 2 + (o : ℝ) ^ 2) →
      Backup.stepComponent d o = 1) ∧
    ((d : ℝ) / Real.sqrt ((d : ℝ) ^ 2 + (o : ℝ) ^ 2) < 1 / 2 →
      Backup.stepComponent d o = 0) := by
  have hpos : (0 : ℝ) < (d : ℝ) ^ 2 + (o : ℝ) ^ 2 := by
    rcases not_and_or.mp h with hd | ho
    · have hd' : (d : ℝ) ≠ 0 := Int.cast_ne_zero.mpr hd
      nlinarith [pow_two_pos_of_ne_zero hd', sq_nonneg ((o : ℝ))]
    · have ho' : (o : ℝ) ≠ 0 := Int.cast_ne_zero.mpr ho
      nlinarith [pow_two_pos_of_ne_zero ho', sq_nonneg ((d : ℝ))]
  have hspos : 0 < Real.sqrt ((d : ℝ) ^ 2 + (o : ℝ) ^ 2) := Real.sqrt_pos.mpr hpos
  have hs2 : Real.sqrt ((d : ℝ) ^ 2 + (o : ℝ) ^ 2) ^ 2 = (d : ℝ) ^ 2 + (o : ℝ) ^ 2 :=
    Real.sq_sqrt (le_of_lt hpos)
  constructor
  · intro hv
    have hds : (1 : ℝ) / 2 * Real.sqrt ((d : ℝ) ^ 2 + (o : ℝ) ^ 2) ≤ (d : ℝ) :=
      (le_div_iff₀ hspos).mp hv
    have hdpos : (0 : ℤ) < d := by
      have : (0 : ℝ) < (d : ℝ) := by nlinarith
      exact_mod_cast this
    have ho2 : o ^ 2 ≤ 3 * d ^ 2 := by
      have : (o : ℝ) ^ 2 ≤ 3 * (d : ℝ) ^ 2 := by nlinarith
      exact_mod_cast this
    unfold Backup.stepComponent
    rw [if_pos ⟨hdpos, ho2⟩]
  · intro hv
    unfold Backup.stepComponent
    rw [if_neg]
    rintro ⟨hdpos, ho2⟩
    have hdR : (0 : ℝ) < (d : ℝ) := by exact_mod_cast hdpos
    have ho2R : (o : ℝ) ^ 2 ≤ 3 * (d : ℝ) ^ 2 := by exact_mod_cast ho2
    have hsq : (d : ℝ) ^ 2 + (o : ℝ) ^ 2 ≤ (2 * (d : ℝ)) ^ 2 := by nlinarith
    have hle : Real.sqrt ((d : ℝ) ^ 2 + (o : ℝ) ^ 2) ≤ 2 * (d : ℝ) := by
      have h1 := Real.sqrt_le_sqrt hsq
      rwa [Real.sqrt_sq_eq_abs, abs_of_pos (by linarith)] at h1
    have : (1 : ℝ) / 2 ≤ (d : ℝ) / Real.sqrt ((d : ℝ) ^ 2 + (o : ℝ) ^ 2) :=
      (le_div_iff₀ hspos).mpr (by linarith)
    linarith
